import Mathlib

/-!
Shallow embedding, in Lean 4, of the report-generation pipeline of this
repository (files `app/price_provider.py` and `llm.py`), together with
theorems settling the frozen claims about it.

Conventions of the embedding:

* Python strings are Lean `String`s (lists of characters).  `str.strip()` and
  `str.lower()` are modelled for the ASCII range (`pyStrip`, `pyLower`), which
  covers every string the alias table and the claims mention.
* Python `dict`s are association lists with unique keys; `dict` literals and
  `dict.get` become `List.lookup`; item assignment `d[k] = v` becomes
  `dictInsert` (replace-in-place if the key exists, append otherwise), which
  is Python's insertion-order semantics.
* Fallible Python code is modelled with `Option` / `Except`: a raised
  exception is an `Except.error` carrying the Python exception class and
  message (`PyError`).
* `json.loads` (Python standard library) is modelled by `loads`, a recursive
  descent parser for the JSON grammar Python accepts (objects, arrays,
  strings with escapes, numbers, `true`/`false`/`null`, and the CPython
  extensions `NaN`/`Infinity`/`-Infinity`).  Numbers are modelled exactly as
  rationals; no claim depends on IEEE-float rounding.  Lone-surrogate
  `\uXXXX` escapes (unrepresentable in Lean `Char`) are mapped to the null
  character; no claim touches them.
* The external Gemini service and the process environment are abstracted by
  `ServiceEnv`: the `GEMINI_API_KEY` value visible after `load_dotenv`, the
  outcome of the `model.generate_content(...)`/`response.text` call (raw text
  or a raised exception's message), and the `datetime.utcnow().isoformat()`
  string read at assembly time.  Prompt construction (`llm.py` lines 41-150)
  only influences what the service is asked, never the control flow of the
  pipeline, so it is represented by the service outcome; the one computation
  in it, `primary_conf_pct`, is modelled separately.
-/

/-! ## Characters and Python string primitives -/

/-- Whitespace characters removed by Python `str.strip()` (ASCII subset:
space, tab, newline, carriage return, vertical tab, form feed). -/
def isPySpace (c : Char) : Bool :=
  c.toNat = 32 || c.toNat = 9 || c.toNat = 10 || c.toNat = 13 || c.toNat = 11 || c.toNat = 12

/-- ASCII lowercasing of one character, as Python `str.lower()` acts on the
ASCII range. -/
def lowerChar (c : Char) : Char :=
  if 65 ≤ c.toNat && c.toNat ≤ 90 then Char.ofNat (c.toNat + 32) else c

/-- Lowercase a character list. -/
def lowerL (l : List Char) : List Char := l.map lowerChar

/-- Remove leading Python whitespace. -/
def lstripL (l : List Char) : List Char := l.dropWhile isPySpace

/-- Remove trailing Python whitespace. -/
def rstripL (l : List Char) : List Char := (l.reverse.dropWhile isPySpace).reverse

/-- Remove leading and trailing Python whitespace. -/
def stripL (l : List Char) : List Char := rstripL (lstripL l)

/-- Python `s.strip()`. -/
def pyStrip (s : String) : String := String.mk (stripL s.data)

/-- Python `s.lower()` (ASCII range). -/
def pyLower (s : String) : String := String.mk (lowerL s.data)

/-! ## `app/price_provider.py` -/

/-- The static alias table `FERT_ALIAS` of `app/price_provider.py`, verbatim.
A Python `dict` literal with pairwise-distinct keys, modelled as an
association list in source order. -/
def FERT_ALIAS : List (String × String) := [
  ("mop", "MOP"), ("murate of potash", "MOP"), ("muriate of potash", "MOP"),
  ("potassium chloride", "MOP"),
  ("sop", "SOP"), ("potassium sulfate", "SOP"), ("potassium sulphate", "SOP"),
  ("urea", "Urea"), ("dap", "DAP"), ("diammonium phosphate", "DAP"),
  ("can", "Calcium Ammonium Nitrate"),
  ("calcium ammonium nitrate", "Calcium Ammonium Nitrate"),
  ("ammonium sulphate", "Ammonium Sulphate"), ("ammonium sulfate", "Ammonium Sulphate"),
  ("vermicompost", "Vermicompost"), ("neem cake", "Neem Cake"), ("bone meal", "Bone Meal"),
  ("compost", "Compost"), ("poultry manure", "Poultry manure"), ("wood ash", "Wood Ash"),
  ("psb", "PSB"), ("phosphate solubilizing bacteria", "PSB"),
  ("rhizobium", "Rhizobium"), ("azospirillum", "Azospirillum"),
  ("azotobacter", "Azotobacter")]

/-- `normalize_name` of `app/price_provider.py`:

```python
def normalize_name(name):
    if not name:
        return None
    key = name.strip().lower()
    return FERT_ALIAS.get(key, name.strip())
```

`if not name` is true exactly for `None` and the empty string. -/
def normalize_name (name : Option String) : Option String :=
  match name with
  | none => none
  | some s =>
    if s = "" then none
    else some ((FERT_ALIAS.lookup (pyLower (pyStrip s))).getD (pyStrip s))

/-- `live_price_provider` of `app/price_provider.py`: normalizes the name and
then, the live data source being an unwired stub, returns `None`
("unavailable") unconditionally. -/
def live_price_provider (name : String) (region : Option String := none) : Option Rat :=
  let canon := normalize_name (some name)
  none

/-! ## Helper lemmas on `dropWhile`, stripping and lowercasing -/

lemma dropWhile_append_of_forall {p : Char → Bool} :
    ∀ (w l : List Char), (∀ c ∈ w, p c = true) → List.dropWhile p (w ++ l) = List.dropWhile p l
  | [], _, _ => rfl
  | c :: w, l, h => by
    simp only [List.cons_append, List.dropWhile, h c (by simp)]
    exact dropWhile_append_of_forall w l (fun x hx => h x (by simp [hx]))

lemma dropWhile_cons_of_false {p : Char → Bool} {c : Char} (l : List Char)
    (h : p c = false) : List.dropWhile p (c :: l) = c :: l := by
  simp [List.dropWhile, h]

lemma dropWhile_head_false {p : Char → Bool} :
    ∀ (l : List Char) {c : Char} {t : List Char}, List.dropWhile p l = c :: t → p c = false
  | [], _, _, h => by simp [List.dropWhile] at h
  | a :: l, c, t, h => by
    cases hp : p a with
    | true =>
      simp only [List.dropWhile, hp] at h
      exact dropWhile_head_false l h
    | false =>
      simp only [List.dropWhile, hp] at h
      cases h
      exact hp

lemma dropWhile_idem {p : Char → Bool} (l : List Char) :
    List.dropWhile p (List.dropWhile p l) = List.dropWhile p l := by
  cases h : List.dropWhile p l with
  | nil => rfl
  | cons c t => exact dropWhile_cons_of_false t (dropWhile_head_false l h)

lemma rstripL_decomp_exists (m : List Char) :
    ∃ w, m = rstripL m ++ w ∧ ∀ c ∈ w, isPySpace c = true := by
  refine ⟨(m.reverse.takeWhile isPySpace).reverse, ?_, ?_⟩
  · calc m = m.reverse.reverse := (List.reverse_reverse m).symm
      _ = (m.reverse.takeWhile isPySpace ++ m.reverse.dropWhile isPySpace).reverse := by
          rw [List.takeWhile_append_dropWhile]
      _ = (m.reverse.dropWhile isPySpace).reverse ++ (m.reverse.takeWhile isPySpace).reverse := by
          rw [List.reverse_append]
      _ = rstripL m ++ (m.reverse.takeWhile isPySpace).reverse := rfl
  · intro c hc
    exact List.mem_takeWhile_imp (List.mem_reverse.mp hc)

lemma stripL_of_all_space (l : List Char) (h : ∀ c ∈ l, isPySpace c = true) :
    stripL l = [] := by
  have : lstripL l = [] := by
    have := dropWhile_append_of_forall l [] h
    simpa [lstripL] using this
  simp [stripL, this, rstripL]

lemma stripL_idem (l : List Char) : stripL (stripL l) = stripL l := by
  set t := stripL l with ht
  have htrev : t.reverse = List.dropWhile isPySpace (lstripL l).reverse := by
    simp [ht, stripL, rstripL]
  have hlstrip : lstripL t = t := by
    obtain ⟨w, hw, hwall⟩ := rstripL_decomp_exists (lstripL l)
    rw [stripL] at ht
    cases hcase : t with
    | nil => simp [lstripL]
    | cons c r =>
      have hhd : isPySpace c = false := by
        apply dropWhile_head_false (p := isPySpace) l (t := r ++ w)
        calc List.dropWhile isPySpace l = lstripL l := rfl
          _ = rstripL (lstripL l) ++ w := hw
          _ = (c :: r) ++ w := by rw [← ht, hcase]
          _ = c :: (r ++ w) := rfl
      simpa [lstripL, hcase] using dropWhile_cons_of_false r hhd
  have hrstrip : rstripL t = t := by
    have : List.dropWhile isPySpace t.reverse = t.reverse := by
      rw [htrev]
      exact dropWhile_idem _
    simp [rstripL, this]
  rw [stripL, hlstrip, hrstrip]

lemma stripL_decomp (w1 t w2 : List Char)
    (h1 : ∀ x ∈ w1, isPySpace x = true) (h2 : ∀ x ∈ w2, isPySpace x = true)
    (hhd : ∃ c r, t = c :: r ∧ isPySpace c = false)
    (hlast : ∃ c r, t.reverse = c :: r ∧ isPySpace c = false) :
    stripL (w1 ++ t ++ w2) = t := by
  obtain ⟨c, r, hcr, hc⟩ := hhd
  obtain ⟨d, q, hdq, hd⟩ := hlast
  have hl : lstripL (w1 ++ t ++ w2) = t ++ w2 := by
    have : w1 ++ t ++ w2 = w1 ++ (t ++ w2) := by simp
    rw [lstripL, this, dropWhile_append_of_forall w1 (t ++ w2) h1, hcr]
    exact dropWhile_cons_of_false (r ++ w2) hc
  have hr : rstripL (t ++ w2) = t := by
    rw [rstripL, List.reverse_append,
      dropWhile_append_of_forall w2.reverse t.reverse
        (fun x hx => h2 x (List.mem_reverse.mp hx)),
      hdq, dropWhile_cons_of_false q hd, ← hdq, List.reverse_reverse]
  rw [stripL, hl, hr]

lemma isPySpace_of_lowerChar {c : Char} (h : isPySpace (lowerChar c) = false) :
    isPySpace c = false := by
  by_contra hne
  have hc : isPySpace c = true := by revert hne; cases isPySpace c <;> simp
  have hlt : c.toNat < 65 := by
    simp only [isPySpace, Bool.or_eq_true, decide_eq_true_eq] at hc
    omega
  have heq : lowerChar c = c := by
    rw [lowerChar, if_neg]
    simp only [Bool.and_eq_true, decide_eq_true_eq, not_and]
    omega
  rw [heq, hc] at h
  cases h

/-- Whether a character list is nonempty and starts with a non-whitespace
character; applied to a list and its reverse it states that stripping the
list is a no-op. -/
def headNonSpace (l : List Char) : Bool :=
  match l.head? with
  | some c => !isPySpace c
  | none => false

lemma exists_head_nonspace_of_lower (t kd : List Char) (hl : lowerL t = kd)
    (hk : headNonSpace kd = true) : ∃ c r, t = c :: r ∧ isPySpace c = false := by
  cases t with
  | nil => rw [← hl] at hk; simp [headNonSpace, lowerL] at hk
  | cons c r =>
    refine ⟨c, r, rfl, ?_⟩
    rw [← hl] at hk
    simp only [lowerL, List.map_cons, headNonSpace, List.head?_cons,
      Bool.not_eq_true'] at hk
    exact isPySpace_of_lowerChar hk

lemma lookup_mem {α : Type} [BEq α] [LawfulBEq α] {β : Type} :
    ∀ (l : List (α × β)) (k : α) (v : β), l.lookup k = some v → (k, v) ∈ l
  | [], _, _, h => by simp [List.lookup] at h
  | (a, b) :: l, k, v, h => by
    cases hk : k == a with
    | true =>
      simp only [List.lookup, hk] at h
      cases h
      rw [eq_of_beq hk]
      exact List.mem_cons_self _ _
    | false =>
      simp only [List.lookup, hk] at h
      exact List.mem_cons_of_mem _ (lookup_mem l k v h)

lemma normalize_name_some (s : String) :
    normalize_name (some s) =
      if s = "" then none
      else some ((FERT_ALIAS.lookup (pyLower (pyStrip s))).getD (pyStrip s)) := rfl

lemma aliasKeysOk :
    FERT_ALIAS.all (fun p => headNonSpace p.1.data && headNonSpace p.1.data.reverse) = true := by
  rfl

/-! ## Claims about `app/price_provider.py` -/

/-- Claim C6, corrected: `normalize_name` returns `None` for input `None` and
for the empty string, but a whitespace-only nonempty string is truthy in
Python, so it falls through to the alias lookup and comes back as the trimmed
string `""`, not `None`. -/
theorem c6_null_empty_whitespace :
    normalize_name none = none ∧ normalize_name (some "") = none ∧
    ∀ s : String, s ≠ "" → (∀ c ∈ s.data, isPySpace c = true) →
      normalize_name (some s) = some "" := by
  refine ⟨rfl, rfl, ?_⟩
  intro s hs hall
  have hstrip : pyStrip s = "" := by
    simp only [pyStrip, stripL_of_all_space s.data hall]
  rw [normalize_name_some, if_neg hs, hstrip]
  rfl

/-- Claim C6, counterexample to the claim as stated: on the whitespace-only
string `" "` the code returns `some ""` (the trimmed original), not `None`. -/
theorem c6_whitespace_counterexample :
    normalize_name (some " ") = some "" ∧ normalize_name (some " ") ≠ none := by
  exact ⟨rfl, by decide⟩

/-- Claim C6, witness: the amended theorem applied to the concrete
whitespace-only input `"\t "`. -/
theorem c6_null_empty_whitespace_witness : normalize_name (some "\t ") = some "" :=
  c6_null_empty_whitespace.2.2 "\t " (by decide) (by decide)

/-- Claim C7, confirmed: for every alias-table key, any recasing of it padded
with any surrounding whitespace normalizes to the documented canonical value;
any string whose trimmed lowercase form is not in the table is returned
trimmed but otherwise unmodified. -/
theorem c7_alias_table_normalization :
    (∀ k v, FERT_ALIAS.lookup k = some v →
      ∀ (s : String) (w1 t w2 : List Char), s.data = w1 ++ t ++ w2 →
        (∀ c ∈ w1, isPySpace c = true) → (∀ c ∈ w2, isPySpace c = true) →
        lowerL t = k.data →
        normalize_name (some s) = some v) ∧
    (∀ s : String, s ≠ "" →
      FERT_ALIAS.lookup (pyLower (pyStrip s)) = none →
      normalize_name (some s) = some (pyStrip s)) := by
  constructor
  · intro k v hlk s w1 t w2 hsdata h1 h2 hl
    have hm : (k, v) ∈ FERT_ALIAS := lookup_mem _ _ _ hlk
    have hok := List.all_eq_true.mp aliasKeysOk _ hm
    obtain ⟨hok1, hok2⟩ := Bool.and_eq_true_iff.mp hok
    have hhd := exists_head_nonspace_of_lower t k.data hl hok1
    have hrev : lowerL t.reverse = k.data.reverse := by
      simp only [lowerL, List.map_reverse]
      rw [show List.map lowerChar t = k.data from hl]
    have hlast := exists_head_nonspace_of_lower t.reverse k.data.reverse hrev hok2
    have hstrip : pyStrip s = String.mk t := by
      simp only [pyStrip, hsdata]
      rw [stripL_decomp w1 t w2 h1 h2 hhd hlast]
    have hlow : pyLower (String.mk t) = k := by
      show String.mk (lowerL t) = k
      rw [hl]
    have hs : s ≠ "" := by
      intro he
      obtain ⟨c, r, hcr, -⟩ := hhd
      rw [he, hcr] at hsdata
      simp only [show ("" : String).data = [] from rfl] at hsdata
      simp at hsdata
    rw [normalize_name_some, if_neg hs, hstrip, hlow, hlk]
    rfl
  · intro s hs hlk
    rw [normalize_name_some, if_neg hs, hlk]
    rfl

/-- Claim C7, witness: the theorem applied to `" MOP "` (whitespace and
casing around the key `"mop"`), to `"Muriate of Potash"` (casing of a
multi-word key), and to the unknown name `"Unknown Fert "`. -/
theorem c7_alias_table_normalization_witness :
    normalize_name (some " MOP ") = some "MOP" ∧
    normalize_name (some "Muriate of Potash") = some "MOP" ∧
    normalize_name (some "Unknown Fert ") = some "Unknown Fert" := by
  refine ⟨?_, ?_, ?_⟩
  · exact c7_alias_table_normalization.1 "mop" "MOP" rfl " MOP "
      [' '] ['M', 'O', 'P'] [' '] rfl (by decide) (by decide) rfl
  · exact c7_alias_table_normalization.1 "muriate of potash" "MOP" rfl "Muriate of Potash"
      [] "Muriate of Potash".data [] rfl (by decide) (by decide) rfl
  · have h := c7_alias_table_normalization.2 "Unknown Fert " (by decide) rfl
    rw [h]
    rfl

/-- Claim C8, counterexample to the claim as stated: idempotence fails on the
nonempty whitespace-only string `" "`, which normalizes to `""`, while `""`
normalizes to `None`. -/
theorem c8_idempotence_counterexample :
    normalize_name (normalize_name (some " ")) ≠ normalize_name (some " ") := by
  decide

/-- Claim C8, amended: normalization is idempotent for every string
containing at least one non-whitespace character (equivalently, whose
trimmed form is nonempty); every canonical alias-table value normalizes to
itself; unknown names pass through trimmed (claim C7).  The sole exception,
forced by the counterexample, is the whitespace-only strings, which
normalize to `""` while `""` normalizes to `None`. -/
theorem c8_idempotence_amended :
    (∀ s : String, pyStrip s ≠ "" →
      normalize_name (normalize_name (some s)) = normalize_name (some s)) ∧
    (∀ k v, (k, v) ∈ FERT_ALIAS → normalize_name (some v) = some v) := by
  have hfix : ∀ k v, (k, v) ∈ FERT_ALIAS → normalize_name (some v) = some v := by
    intro k v h
    fin_cases h <;> rfl
  refine ⟨?_, hfix⟩
  intro s hps
  have hs : s ≠ "" := by
    intro he
    apply hps
    rw [he]
    rfl
  have hstripstrip : pyStrip (pyStrip s) = pyStrip s := by
    simp only [pyStrip]
    rw [stripL_idem]
  cases hlk : FERT_ALIAS.lookup (pyLower (pyStrip s)) with
  | some v =>
    have h1 : normalize_name (some s) = some v := by
      rw [normalize_name_some, if_neg hs, hlk]
      rfl
    rw [h1]
    exact hfix _ v (lookup_mem _ _ _ hlk)
  | none =>
    have h1 : normalize_name (some s) = some (pyStrip s) := by
      rw [normalize_name_some, if_neg hs, hlk]
      rfl
    rw [h1]
    rw [normalize_name_some, if_neg hps, hstripstrip, hlk]
    rfl

/-- Claim C8, witness: the amended theorem applied to `" Urea "` (whose
trimmed form is nonempty) and to the canonical value `"MOP"`. -/
theorem c8_idempotence_amended_witness :
    normalize_name (normalize_name (some " Urea ")) = normalize_name (some " Urea ") ∧
    normalize_name (some "MOP") = some "MOP" :=
  ⟨c8_idempotence_amended.1 " Urea " (by decide),
   c8_idempotence_amended.2 "mop" "MOP" (by decide)⟩

/-- Claim C10, confirmed: with no live price source wired up,
`live_price_provider` returns `None` ("unavailable") for every name and
every region; being a total function of the embedding, it never raises. -/
theorem c10_live_price_always_unavailable :
    ∀ (name : String) (region : Option String), live_price_provider name region = none :=
  fun _ _ => rfl

/-! ## JSON values and a model of Python `json.loads` -/

/-- JSON-compatible Python values: the possible results of `json.loads` and
the shapes `llm.py` builds.  Numbers are represented exactly as rationals;
the CPython `json` extensions `NaN`, `Infinity` and `-Infinity` are
distinguished constants (their float nature never matters to the claims). -/
inductive JValue where
  | null
  | bool (b : Bool)
  | num (q : Rat)
  | nan
  | inf
  | negInf
  | str (s : String)
  | arr (elems : List JValue)
  | obj (fields : List (String × JValue))

/-- Python `dict` item assignment `d[k] = v` on an association list: update
the existing entry in place (keeping its position) when the key is present,
append a new entry otherwise. -/
def dictInsert (fields : List (String × JValue)) (k : String) (v : JValue) :
    List (String × JValue) :=
  if fields.any (fun p => p.1 = k) then
    fields.map (fun p => if p.1 = k then (k, v) else p)
  else fields ++ [(k, v)]

/-- Whitespace accepted between JSON tokens by Python `json.loads`
(space, tab, newline, carriage return). -/
def isJsonWs (c : Char) : Bool :=
  c.toNat = 32 || c.toNat = 9 || c.toNat = 10 || c.toNat = 13

/-- Skip inter-token whitespace. -/
def skipWs (cs : List Char) : List Char := cs.dropWhile isJsonWs

/-- ASCII decimal digit test. -/
def isDigitC (c : Char) : Bool := 48 ≤ c.toNat && c.toNat ≤ 57

/-- Value of one decimal digit. -/
def digitVal (c : Char) : Nat := c.toNat - 48

/-- Value of one hexadecimal digit, if any. -/
def hexVal (c : Char) : Option Nat :=
  if 48 ≤ c.toNat && c.toNat ≤ 57 then some (c.toNat - 48)
  else if 97 ≤ c.toNat && c.toNat ≤ 102 then some (c.toNat - 87)
  else if 65 ≤ c.toNat && c.toNat ≤ 70 then some (c.toNat - 55)
  else none

/-- Fold a digit list into a natural number. -/
def digitsToNat (ds : List Char) : Nat := ds.foldl (fun acc c => acc * 10 + digitVal c) 0

/-- Match an expected literal suffix (used for `true`, `false`, `null`,
`NaN`, `Infinity`), returning the remaining input. -/
def matchLit : List Char → List Char → Option (List Char)
  | [], cs => some cs
  | _ :: _, [] => none
  | l :: ls, c :: cs => if c = l then matchLit ls cs else none

/-- `10^e` over the rationals for an integer exponent. -/
def pow10 (e : Int) : Rat :=
  match e with
  | .ofNat n => (10 : Rat) ^ n
  | .negSucc n => 1 / (10 : Rat) ^ (n + 1)

/-- Parse the JSON number grammar
`-? (0 | [1-9][0-9]*) (.[0-9]+)? ([eE][+-]?[0-9]+)?` starting at the head of
the input; returns the exact rational value and the rest of the input. -/
def parseNumber (cs : List Char) : Option (Rat × List Char) :=
  let signAndRest : Bool × List Char :=
    match cs with
    | '-' :: rest => (true, rest)
    | _ => (false, cs)
  let neg := signAndRest.1
  let cs1 := signAndRest.2
  let intPart : Option (Nat × List Char) :=
    match cs1 with
    | '0' :: rest => some (0, rest)
    | c :: rest =>
      if isDigitC c && c.toNat ≠ 48 then
        some (digitsToNat (c :: rest.takeWhile isDigitC), rest.dropWhile isDigitC)
      else none
    | [] => none
  match intPart with
  | none => none
  | some (ip, rest1) =>
    let fracStep : Option (Rat × List Char) :=
      match rest1 with
      | '.' :: rest2 =>
        let ds := rest2.takeWhile isDigitC
        if ds.isEmpty then none
        else some ((ip : Rat) + (digitsToNat ds : Rat) / (10 : Rat) ^ ds.length,
                   rest2.dropWhile isDigitC)
      | _ => some ((ip : Rat), rest1)
    match fracStep with
    | none => none
    | some (mag, rest2) =>
      let expStep : Option (Rat × List Char) :=
        match rest2 with
        | e :: rest3 =>
          if e = 'e' || e = 'E' then
            let signedRest : Bool × List Char :=
              match rest3 with
              | '+' :: r => (false, r)
              | '-' :: r => (true, r)
              | _ => (false, rest3)
            let ds := signedRest.2.takeWhile isDigitC
            if ds.isEmpty then none
            else
              let ex : Int := if signedRest.1 then -(digitsToNat ds : Int) else (digitsToNat ds : Int)
              some (mag * pow10 ex, signedRest.2.dropWhile isDigitC)
          else some (mag, rest2)
        | [] => some (mag, rest2)
      match expStep with
      | none => none
      | some (v, rest3) => some (if neg then -v else v, rest3)

/-- Parse the body of a JSON string after the opening quote, handling the
escapes Python accepts (including `\uXXXX` with surrogate-pair combination;
lone surrogates, unrepresentable in a Lean `Char`, become the null
character). -/
def parseStringBody (fuel : Nat) (cs : List Char) (acc : List Char) :
    Option (String × List Char) :=
  match fuel with
  | 0 => none
  | fuel + 1 =>
    match cs with
    | [] => none
    | '"' :: rest => some (String.mk acc.reverse, rest)
    | '\\' :: e :: rest =>
      match e with
      | '"' => parseStringBody fuel rest ('"' :: acc)
      | '\\' => parseStringBody fuel rest ('\\' :: acc)
      | '/' => parseStringBody fuel rest ('/' :: acc)
      | 'b' => parseStringBody fuel rest ('\x08' :: acc)
      | 'f' => parseStringBody fuel rest ('\x0c' :: acc)
      | 'n' => parseStringBody fuel rest ('\n' :: acc)
      | 'r' => parseStringBody fuel rest ('\r' :: acc)
      | 't' => parseStringBody fuel rest ('\t' :: acc)
      | 'u' =>
        match rest with
        | h1 :: h2 :: h3 :: h4 :: rest2 =>
          match hexVal h1, hexVal h2, hexVal h3, hexVal h4 with
          | some a, some b, some c, some d =>
            let code := ((a * 16 + b) * 16 + c) * 16 + d
            if 0xD800 ≤ code && code ≤ 0xDBFF then
              match rest2 with
              | '\\' :: 'u' :: g1 :: g2 :: g3 :: g4 :: rest3 =>
                match hexVal g1, hexVal g2, hexVal g3, hexVal g4 with
                | some a2, some b2, some c2, some d2 =>
                  let code2 := ((a2 * 16 + b2) * 16 + c2) * 16 + d2
                  if 0xDC00 ≤ code2 && code2 ≤ 0xDFFF then
                    parseStringBody fuel rest3
                      (Char.ofNat (0x10000 + (code - 0xD800) * 0x400 + (code2 - 0xDC00)) :: acc)
                  else parseStringBody fuel rest2 (Char.ofNat code :: acc)
                | _, _, _, _ => parseStringBody fuel rest2 (Char.ofNat code :: acc)
              | _ => parseStringBody fuel rest2 (Char.ofNat code :: acc)
            else parseStringBody fuel rest2 (Char.ofNat code :: acc)
          | _, _, _, _ => none
        | _ => none
      | _ => none
    | c :: rest => if c.toNat < 32 then none else parseStringBody fuel rest (c :: acc)

/-- Opening and closing braces, named so the grammar below never spells the
brace characters directly. -/
def lbrace : Char := Char.ofNat 123

/-- Closing brace. -/
def rbrace : Char := Char.ofNat 125

mutual

/-- Parse one JSON value at the head of the input (whitespace already
skipped), as Python `json.loads` accepts it. -/
def parseValue (fuel : Nat) (cs : List Char) : Option (JValue × List Char) :=
  match fuel with
  | 0 => none
  | fuel + 1 =>
    match cs with
    | [] => none
    | c :: rest =>
      if c = lbrace then
        match skipWs rest with
        | d :: rest2 =>
          if d = rbrace then some (.obj [], rest2)
          else
            match parseMembers fuel (d :: rest2) [] with
            | some (fields, rest3) => some (.obj fields, rest3)
            | none => none
        | [] => none
      else if c = '[' then
        match skipWs rest with
        | ']' :: rest2 => some (.arr [], rest2)
        | rest2 =>
          match parseElems fuel rest2 [] with
          | some (elems, rest3) => some (.arr elems, rest3)
          | none => none
      else if c = '"' then
        match parseStringBody (rest.length + 1) rest [] with
        | some (s, rest2) => some (.str s, rest2)
        | none => none
      else if c = 't' then
        match matchLit ['r', 'u', 'e'] rest with
        | some rest2 => some (.bool true, rest2)
        | none => none
      else if c = 'f' then
        match matchLit ['a', 'l', 's', 'e'] rest with
        | some rest2 => some (.bool false, rest2)
        | none => none
      else if c = 'n' then
        match matchLit ['u', 'l', 'l'] rest with
        | some rest2 => some (.null, rest2)
        | none => none
      else if c = 'N' then
        match matchLit ['a', 'N'] rest with
        | some rest2 => some (.nan, rest2)
        | none => none
      else if c = 'I' then
        match matchLit ['n', 'f', 'i', 'n', 'i', 't', 'y'] rest with
        | some rest2 => some (.inf, rest2)
        | none => none
      else if c = '-' then
        match rest with
        | 'I' :: rest2 =>
          match matchLit ['n', 'f', 'i', 'n', 'i', 't', 'y'] rest2 with
          | some rest3 => some (.negInf, rest3)
          | none => none
        | _ =>
          match parseNumber cs with
          | some (q, rest2) => some (.num q, rest2)
          | none => none
      else if isDigitC c then
        match parseNumber cs with
        | some (q, rest2) => some (.num q, rest2)
        | none => none
      else none

/-- Parse the comma-separated elements of a JSON array (positioned at the
start of the first element). -/
def parseElems (fuel : Nat) (cs : List Char) (acc : List JValue) :
    Option (List JValue × List Char) :=
  match fuel with
  | 0 => none
  | fuel + 1 =>
    match parseValue fuel cs with
    | none => none
    | some (v, rest) =>
      match skipWs rest with
      | ',' :: rest2 => parseElems fuel (skipWs rest2) (v :: acc)
      | ']' :: rest2 => some ((v :: acc).reverse, rest2)
      | _ => none

/-- Parse the comma-separated `"key": value` members of a JSON object
(positioned at the opening quote of the first key).  Members accumulate with
Python `dict` semantics: a repeated key overwrites in place. -/
def parseMembers (fuel : Nat) (cs : List Char) (acc : List (String × JValue)) :
    Option (List (String × JValue) × List Char) :=
  match fuel with
  | 0 => none
  | fuel + 1 =>
    match cs with
    | '"' :: rest =>
      match parseStringBody (rest.length + 1) rest [] with
      | none => none
      | some (k, rest2) =>
        match skipWs rest2 with
        | ':' :: rest3 =>
          match parseValue fuel (skipWs rest3) with
          | none => none
          | some (v, rest4) =>
            match skipWs rest4 with
            | ',' :: rest5 =>
              match skipWs rest5 with
              | d :: rest6 => parseMembers fuel (d :: rest6) (dictInsert acc k v)
              | [] => none
            | d :: rest5 =>
              if d = rbrace then some (dictInsert acc k v, rest5)
              else none
            | [] => none
        | _ => none
    | _ => none

end

/-- Model of Python `json.loads`: skip leading whitespace, parse exactly one
value, require only trailing whitespace after it.  `none` models a raised
`json.JSONDecodeError` (a `ValueError`). -/
def loads (s : String) : Option JValue :=
  match parseValue (2 * s.data.length + 2) (skipWs s.data) with
  | some (v, rest) => if skipWs rest = [] then some v else none
  | none => none

/-! ## `llm.py` -/

/-- Index of the last occurrence of `c` in `cs`, if any. -/
def lastIdxOf (c : Char) (cs : List Char) : Option Nat :=
  match cs.reverse.findIdx? (· = c) with
  | some k => some (cs.length - 1 - k)
  | none => none

/-- Model of `re.search(r'\x7b.*\x7d', content, re.DOTALL)` followed by
`.group()`: with a greedy dot that also matches newlines, the leftmost match
of the pattern runs from the first opening brace to the last closing brace
(provided that closing brace comes after the opening one); otherwise there
is no match. -/
def extractBraces (cs : List Char) : Option (List Char) :=
  match cs.findIdx? (· = lbrace), lastIdxOf rbrace cs with
  | some i, some j => if i < j then some ((cs.drop i).take (j - i + 1)) else none
  | _, _ => none

/-- The response-parsing step of `generate_recommendation_report`
(`llm.py` lines 163-178): try `json.loads` on the raw text; on failure try
the brace-delimited substring; on failure (or no such substring) wrap the
raw text as `{"raw": content}`.  Total: every raised parse error is caught
by the source's nested `try/except`. -/
def parseModelText (content : String) : JValue :=
  match loads content with
  | some data => data
  | none =>
    match extractBraces content.data with
    | some sub =>
      match loads (String.mk sub) with
      | some data => data
      | none => .obj [("raw", .str content)]
    | none => .obj [("raw", .str content)]

/-- Python exceptions that can cross the boundary of the embedded pipeline:
`RuntimeError` (raised by `_get_gemini_client`) and `TypeError` (raised by
item assignment on a non-dict). -/
inductive PyError where
  | runtimeError (msg : String)
  | typeError (msg : String)

/-- The environment and external-service behaviour one call of the pipeline
observes: the `GEMINI_API_KEY` value visible via `os.getenv` after
`load_dotenv` (`none` when unset), the outcome of
`model.generate_content(...)` / `response.text` (`Except.error msg` when
that raises, with `str(e) = msg`), and the string
`datetime.utcnow().isoformat()` returns at assembly time. -/
structure ServiceEnv where
  apiKey : Option String
  callResult : Except String String
  isoTimestamp : String

/-- `_get_gemini_client` (`llm.py` lines 9-27): with the
`google.generativeai` package importable (a fixed property of the deployed
environment), it raises `RuntimeError` when `GEMINI_API_KEY` is unset or
empty (`if not api_key`), and otherwise configures and returns the client. -/
def get_gemini_client (apiKey : Option String) : Except PyError Unit :=
  match apiKey with
  | none => .error (.runtimeError "GEMINI_API_KEY is not set. Export it or add to a .env file.")
  | some k =>
    if k = "" then
      .error (.runtimeError "GEMINI_API_KEY is not set. Export it or add to a .env file.")
    else .ok ()

/-- Python `round`: banker's rounding (round half to even). -/
def pyRound (q : Rat) : Int :=
  let f := q.floor
  let r := q - (f : Rat)
  if r < 1/2 then f
  else if 1/2 < r then f + 1
  else if f % 2 = 0 then f else f + 1

/-- `primary_conf_pct` (`llm.py` lines 42-46): the rounded percentage of the
`Primary_Fertilizer` confidence if present, else `None`.  It feeds only the
prompt text. -/
def primary_conf_pct (confidences : List (String × Rat)) : Option Int :=
  match confidences.lookup "Primary_Fertilizer" with
  | some c => some (pyRound (c * 100))
  | none => none

/-- Encode the caller's `confidences` mapping (string keys to floats) as the
JSON object stored in `_meta`. -/
def encodeConfidences (confidences : List (String × Rat)) : List (String × JValue) :=
  confidences.map (fun p => (p.1, JValue.num p.2))

/-- The `_meta` block (`llm.py` lines 186-190): the assembly-time UTC
timestamp with an explicit `"Z"` suffix, and the three arguments verbatim. -/
def buildMeta (env : ServiceEnv) (base_inputs predictions : List (String × JValue))
    (confidences : List (String × Rat)) : JValue :=
  .obj [
    ("generated_at", .str (env.isoTimestamp ++ "Z")),
    ("inputs", .obj base_inputs),
    ("predictions", .obj predictions),
    ("confidences", .obj (encodeConfidences confidences))]

/-- `data["_meta"] = meta` (`llm.py` line 185): succeeds only when `data` is
a dict; on every other value produced by `json.loads` it raises `TypeError`
(Python's message text varies with the type of `data`). -/
def attachMeta (data : JValue) (meta : JValue) : Except PyError JValue :=
  match data with
  | .obj fields => .ok (.obj (dictInsert fields "_meta" meta))
  | _ => .error (.typeError "object does not support item assignment")

/-- The value bound to `data` at `llm.py` line 185: the parsed model text on
service success, the synthesized error object on service failure
(`llm.py` lines 180-182). -/
def pipelineData (callResult : Except String String) : JValue :=
  match callResult with
  | .ok content => parseModelText content
  | .error e => .obj [("error", .str ("Failed to generate recommendation: " ++ e))]

/-- `generate_recommendation_report` (`llm.py` lines 30-191).  The client
factory runs outside any `try`, so its `RuntimeError` propagates; the
service call and the response parse are wrapped; `_meta` attachment runs
after the `except` blocks and may itself raise `TypeError`. -/
def generate_recommendation_report (env : ServiceEnv)
    (base_inputs predictions : List (String × JValue))
    (confidences : List (String × Rat)) : Except PyError JValue :=
  match get_gemini_client env.apiKey with
  | .error e => .error e
  | .ok _ =>
    attachMeta (pipelineData env.callResult) (buildMeta env base_inputs predictions confidences)

/-- Read a key from a JSON object (`none` on non-objects); used to state
properties of assembled reports. -/
def jGet (v : JValue) (k : String) : Option JValue :=
  match v with
  | .obj fields => fields.lookup k
  | _ => none

/-! ## Helper lemmas for the pipeline claims -/

lemma lookup_map_replace (k : String) (v : JValue) :
    ∀ (fields : List (String × JValue)),
      fields.any (fun p => p.1 = k) = true →
      (fields.map (fun p => if p.1 = k then (k, v) else p)).lookup k = some v := by
  intro fields
  induction fields with
  | nil => intro h; simp at h
  | cons a rest ih =>
    intro h
    by_cases ha : a.1 = k
    · simp only [List.map_cons, if_pos ha]
      simp [List.lookup]
    · simp only [List.any_cons, decide_eq_true_eq, ha, false_or, Bool.false_or] at h
      simp only [List.map_cons, if_neg ha]
      have hne : (k == a.1) = false := by
        simp only [beq_eq_false_iff_ne, ne_eq]
        exact fun he => ha he.symm
      simp only [List.lookup, hne]
      exact ih h

lemma lookup_append_single (k : String) (v : JValue) :
    ∀ (fields : List (String × JValue)),
      fields.any (fun p => p.1 = k) = false →
      (fields ++ [(k, v)]).lookup k = some v := by
  intro fields
  induction fields with
  | nil => intro _; simp [List.lookup]
  | cons a rest ih =>
    intro h
    rw [List.any_cons] at h
    rw [Bool.or_eq_false_iff] at h
    have hne : (k == a.1) = false := by
      rw [beq_eq_false_iff_ne]
      intro he
      rw [← he] at h
      simp at h
    simp only [List.cons_append, List.lookup, hne]
    exact ih h.2

lemma lookup_dictInsert (fields : List (String × JValue)) (k : String) (v : JValue) :
    (dictInsert fields k v).lookup k = some v := by
  unfold dictInsert
  by_cases h : fields.any (fun p => p.1 = k) = true
  · rw [if_pos h]
    exact lookup_map_replace k v fields h
  · rw [if_neg h]
    have hf : fields.any (fun p => p.1 = k) = false := by
      revert h
      cases fields.any (fun p => p.1 = k) <;> simp
    exact lookup_append_single k v fields hf

lemma attachMeta_ok (data meta r : JValue) (h : attachMeta data meta = .ok r) :
    ∃ fields, data = .obj fields ∧ r = .obj (dictInsert fields "_meta" meta) := by
  cases data <;> simp [attachMeta] at h
  case obj fields => exact ⟨fields, rfl, h.symm⟩

/-! ## Claims about `llm.py` -/

/-- Claim C1, counterexample to the claim as stated: with `GEMINI_API_KEY`
unset, `generate_recommendation_report` does not return an error-shaped
report; the `RuntimeError` raised by `_get_gemini_client` (which runs
outside every `try`) crosses the pipeline boundary to the caller. -/
theorem c1_missing_key_counterexample :
    generate_recommendation_report
        ⟨none, .ok "\x7b\x7d", "2024-01-01T00:00:00"⟩ [] [] [] =
      .error (.runtimeError "GEMINI_API_KEY is not set. Export it or add to a .env file.") :=
  rfl

/-- Claim C1, amended: missing or empty credentials are detected before any
network attempt (the result is the same for every service outcome
`callResult`), but they surface as a raised `RuntimeError` crossing the
pipeline boundary, not as a synthesized `{error: ...}` report; only
failures of the generation call itself are converted to error-shaped
reports (claim C2). -/
theorem c1_missing_key_raises :
    ∀ (base_inputs predictions : List (String × JValue))
      (confidences : List (String × Rat))
      (callResult : Except String String) (ts : String),
      generate_recommendation_report ⟨none, callResult, ts⟩
          base_inputs predictions confidences =
        .error (.runtimeError "GEMINI_API_KEY is not set. Export it or add to a .env file.") ∧
      generate_recommendation_report ⟨some "", callResult, ts⟩
          base_inputs predictions confidences =
        .error (.runtimeError "GEMINI_API_KEY is not set. Export it or add to a .env file.") :=
  fun _ _ _ _ _ => ⟨rfl, rfl⟩

/-- Claim C2, confirmed: whenever the client was obtained (a nonempty API
key) and the generation call itself raises, the pipeline returns — it does
not raise — an object carrying both the `error` key (with the failure
description) and the `_meta` block. -/
theorem c2_service_failure_error_report :
    ∀ (env : ServiceEnv) (base_inputs predictions : List (String × JValue))
      (confidences : List (String × Rat)) (k msg : String),
      env.apiKey = some k → k ≠ "" → env.callResult = .error msg →
      generate_recommendation_report env base_inputs predictions confidences =
        .ok (.obj [("error", .str ("Failed to generate recommendation: " ++ msg)),
                   ("_meta", buildMeta env base_inputs predictions confidences)]) := by
  intro env bi p c k msg hk hk0 hcall
  unfold generate_recommendation_report
  rw [hk, hcall]
  have hcli : get_gemini_client (some k) = .ok () := by
    have hred : get_gemini_client (some k) =
        if k = "" then
          .error (.runtimeError "GEMINI_API_KEY is not set. Export it or add to a .env file.")
        else .ok () := rfl
    rw [hred, if_neg hk0]
  rw [hcli]
  rfl

/-- Claim C2, witness: the theorem at a concrete failing service call. -/
theorem c2_service_failure_error_report_witness :
    generate_recommendation_report
        ⟨some "key", .error "boom", "2024-01-01T00:00:00"⟩ [] [] [] =
      .ok (.obj [("error", .str ("Failed to generate recommendation: " ++ "boom")),
                 ("_meta", buildMeta ⟨some "key", .error "boom", "2024-01-01T00:00:00"⟩
                   [] [] [])]) :=
  c2_service_failure_error_report ⟨some "key", .error "boom", "2024-01-01T00:00:00"⟩
    [] [] [] "key" "boom" rfl (by decide) rfl

/-- Claim C3, confirmed: the response-parsing step is a total function —
every raw model text yields a value through one of the three layers (direct
parse, brace extraction, raw wrapper) and no exception escapes — and the
raw text `"not json at all"` comes back verbatim as `{"raw": ...}`. -/
theorem c3_parser_total_with_raw_fallback :
    (∀ content : String,
      (∃ v, loads content = some v ∧ parseModelText content = v) ∨
      (∃ sub v, extractBraces content.data = some sub ∧
        loads (String.mk sub) = some v ∧ parseModelText content = v) ∨
      parseModelText content = .obj [("raw", .str content)]) ∧
    parseModelText "not json at all" = .obj [("raw", .str "not json at all")] := by
  constructor
  · intro content
    cases h1 : loads content with
    | some v =>
      refine Or.inl ⟨v, rfl, ?_⟩
      unfold parseModelText
      rw [h1]
    | none =>
      cases h2 : extractBraces content.data with
      | some sub =>
        have hstep : parseModelText content =
            (match loads (String.mk sub) with
             | some data => data
             | none => JValue.obj [("raw", JValue.str content)]) := by
          unfold parseModelText
          rw [h1, h2]
        cases h3 : loads (String.mk sub) with
        | some v =>
          refine Or.inr (Or.inl ⟨sub, v, rfl, ?_, ?_⟩)
          · rw [h3]
          rw [hstep, h3]
        | none =>
          refine Or.inr (Or.inr ?_)
          rw [hstep, h3]
      | none =>
        refine Or.inr (Or.inr ?_)
        unfold parseModelText
        rw [h1, h2]
  · rfl

/-- Claim C4, confirmed: a directly-JSON-valid raw text is returned exactly
as parsed, with no extraction; otherwise the substring from the first
opening brace to the last closing brace (greedy, newline-spanning) is
parsed, and the concrete example from the claim parses to `{"a": 1}`. -/
theorem c4_brace_extraction :
    (∀ (content : String) (v : JValue),
      loads content = some v → parseModelText content = v) ∧
    (∀ (content : String) (i j : Nat), loads content = none →
      content.data.findIdx? (fun c => c = lbrace) = some i →
      lastIdxOf rbrace content.data = some j → i < j →
      parseModelText content =
        (match loads (String.mk ((content.data.drop i).take (j - i + 1))) with
         | some v => v
         | none => JValue.obj [("raw", JValue.str content)])) ∧
    parseModelText "Here is the result: \x7b\"a\":1\x7d done" =
      .obj [("a", .num 1)] := by
  refine ⟨?_, ?_, ?_⟩
  · intro content v h
    unfold parseModelText
    rw [h]
  · intro content i j h1 h2 h3 h4
    have hex : extractBraces content.data =
        some ((content.data.drop i).take (j - i + 1)) := by
      unfold extractBraces
      rw [h2, h3]
      exact if_pos h4
    unfold parseModelText
    rw [h1, hex]
  · rfl

/-- Claim C4, witness: layer-2 extraction at the concrete input
`"x {"b": 2} y"` — first brace at index 2, last closing brace at index 9. -/
theorem c4_brace_extraction_witness :
    parseModelText "x \x7b\"b\": 2\x7d y" = .obj [("b", .num 2)] := by
  have h := c4_brace_extraction.2.1 "x \x7b\"b\": 2\x7d y" 2 9 rfl rfl rfl (by decide)
  rw [h]
  rfl

/-- Claim C5, confirmed: a service response that is valid JSON but not a
JSON object passes layer-1 parsing with a non-dict value, and the
subsequent `data["_meta"] = ...` raises `TypeError` out of the public entry
point, so no report is returned. -/
theorem c5_nondict_json_typeerror :
    loads "[1, 2]" = some (.arr [.num 1, .num 2]) ∧
    loads "42" = some (.num 42) ∧
    generate_recommendation_report
        ⟨some "key", .ok "[1, 2]", "2024-01-01T00:00:00"⟩ [] [] [] =
      .error (.typeError "object does not support item assignment") ∧
    generate_recommendation_report
        ⟨some "key", .ok "42", "2024-01-01T00:00:00"⟩ [] [] [] =
      .error (.typeError "object does not support item assignment") :=
  ⟨rfl, rfl, rfl, rfl⟩

/-- Claim C9, confirmed: every report the pipeline returns (successful
parse, raw-text fallback, or error object — the only `.ok` outcomes) holds
under `_meta` exactly the assembly-time timestamp with its explicit `"Z"`
suffix and verbatim copies of the caller's `base_inputs`, `predictions` and
`confidences`. -/
theorem c9_meta_echoes_arguments :
    ∀ (env : ServiceEnv) (base_inputs predictions : List (String × JValue))
      (confidences : List (String × Rat)) (r : JValue),
      generate_recommendation_report env base_inputs predictions confidences = .ok r →
      jGet r "_meta" = some (buildMeta env base_inputs predictions confidences) ∧
      buildMeta env base_inputs predictions confidences =
        .obj [("generated_at", .str (env.isoTimestamp ++ "Z")),
              ("inputs", .obj base_inputs),
              ("predictions", .obj predictions),
              ("confidences", .obj (encodeConfidences confidences))] := by
  intro env bi p c r hok
  refine ⟨?_, rfl⟩
  unfold generate_recommendation_report at hok
  cases hcli : get_gemini_client env.apiKey with
  | error e =>
    rw [hcli] at hok
    cases hok
  | ok u =>
    rw [hcli] at hok
    obtain ⟨fields, hdata, hr⟩ := attachMeta_ok _ _ _ hok
    rw [hr]
    show (dictInsert fields "_meta" (buildMeta env bi p c)).lookup "_meta" =
      some (buildMeta env bi p c)
    exact lookup_dictInsert fields "_meta" _

/-- Concrete environment used by the C9 witness: a successful service call
answering the empty JSON object. -/
def envC9 : ServiceEnv := ⟨some "key", .ok "\x7b\x7d", "2024-01-01T00:00:00"⟩

/-- Claim C9, witness: the theorem at a concrete successful call; the
returned report is `{"_meta": ...}` and its `_meta` echoes the arguments. -/
theorem c9_meta_echoes_arguments_witness :
    jGet (JValue.obj [("_meta", buildMeta envC9 [("a", JValue.num 1)] [] [])]) "_meta" =
      some (buildMeta envC9 [("a", JValue.num 1)] [] []) ∧
    buildMeta envC9 [("a", JValue.num 1)] [] [] =
      .obj [("generated_at", .str (envC9.isoTimestamp ++ "Z")),
            ("inputs", .obj [("a", JValue.num 1)]),
            ("predictions", .obj []),
            ("confidences", .obj (encodeConfidences []))] :=
  c9_meta_echoes_arguments envC9 [("a", JValue.num 1)] [] []
    (JValue.obj [("_meta", buildMeta envC9 [("a", JValue.num 1)] [] [])]) rfl
